import Mathlib

/-!
Verification of the resume-tailoring client (`tailor_with_gemini.py`).

The development shallowly embeds the string-level logic of the script:
the quota-driven model-fallback mechanism (`retry_with_models`), model
selection (`list_available_models`), the layered JSON field extractor
(`_extract_info`), and the output-assembly part of `main`.  External
collaborators (the generative-AI provider and Python's `json.loads`) are
modelled as function parameters; Python strings are Lean `String`s and
substring / split / strip operations are spelled out on `String.data`
so that everything is executable.
-/

namespace ResumeTailor

/-- Python's `pat in s` substring test, on character lists. -/
def hasSublist (pat : List Char) : List Char → Bool
  | [] => pat.isEmpty
  | l@(_ :: cs) => pat.isPrefixOf l || hasSublist pat cs

/-- Python's `pat in s` substring test on strings. -/
def containsSub (s pat : String) : Bool := hasSublist pat.data s.data

/-- Python's `str.lower()` (ASCII case folding, which covers every string
the script compares). -/
def lowerStr (s : String) : String := String.mk (s.data.map Char.toLower)

/-- Python's `s.split('/')[-1]`: the final `/`-separated component. -/
def lastComponent (s : String) : String :=
  String.mk ((s.data.reverse.takeWhile (fun c => c ≠ '/')).reverse)

/-- Python's `s.startswith("models/")`. -/
def startsWithModels (s : String) : Bool := "models/".data.isPrefixOf s.data

/-- Quota classification of `retry_with_models` (lines 190-198): an error
message is retryable when it contains the literal phrase
`429 Resource has been exhausted` (case-sensitively) or contains `quota`
after lower-casing. -/
def isQuotaError (msg : String) : Bool :=
  containsSub msg "429 Resource has been exhausted" || containsSub (lowerStr msg) "quota"

/-- Classification used inside the fallback loop (lines 219-223): continue
to the next model on quota errors, `404`, or `not found`. -/
def isContinueError (msg : String) : Bool :=
  isQuotaError msg || containsSub msg "404" || containsSub (lowerStr msg) "not found"

/-- The fallback catalog `FALLBACK_MODELS` (lines 138-171), in declared order. -/
def FALLBACK_MODELS : List String :=
  [ "gemini-2.0-pro-exp-02-05",
    "gemini-2.0-pro-exp",
    "gemini-1.5-pro-latest",
    "gemini-1.5-pro",
    "gemini-1.5-pro-002",
    "gemini-1.5-pro-001",
    "gemini-2.0-flash",
    "gemini-2.0-flash-001",
    "gemini-1.5-flash-latest",
    "gemini-1.5-flash",
    "gemini-1.5-flash-002",
    "gemini-1.5-flash-001",
    "gemini-1.5-flash-001-tuning",
    "gemini-2.0-flash-lite",
    "gemini-2.0-flash-lite-001",
    "gemini-2.0-flash-lite-preview",
    "gemini-2.0-flash-lite-preview-02-05",
    "gemini-2.0-flash-exp",
    "gemini-exp-1206",
    "learnlm-1.5-pro-experimental",
    "gemini-2.0-flash-thinking-exp",
    "gemini-2.0-flash-thinking-exp-1219",
    "gemini-2.0-flash-thinking-exp-01-21" ]

/-- Initial contents of `tried_models` (lines 178-187): when the loaded
model exposes a `model_name`, that name and its prefixed/unprefixed alias
are recorded; a model without the attribute records nothing. -/
def initialTried : Option String → List String
  | none => []
  | some n =>
      if startsWithModels n then [n, lastComponent n]
      else [n, "models/" ++ n]

/-- The fallback loop of `retry_with_models` (lines 201-227).  `op m`
models constructing `genai.GenerativeModel m` and invoking `func` on it;
`last` is the last-seen exception.  The second component is the ghost
trace of fallback model names on which the operation was attempted, in
order; it does not influence the result. -/
def retry_fallback_loop {α : Type} (op : String → Except String α) :
    String → List String → List String → Except String α × List String
  | last, _, [] => (Except.error last, [])
  | last, tried, m :: rest =>
      if m ∈ tried ∨ ("models/" ++ m) ∈ tried then
        retry_fallback_loop op last tried rest
      else
        match op m with
        | Except.ok v => (Except.ok v, [m])
        | Except.error e =>
            if isContinueError e then
              let r := retry_fallback_loop op e (m :: ("models/" ++ m) :: tried) rest
              (r.1, m :: r.2)
            else (Except.error e, [m])

/-- `retry_with_models` (lines 121-227).  The first call runs on the
already-loaded model handle, modelled by its optional `model_name`
(`initName`) and its outcome (`initRes`); fallback models are constructed
by name through `op`.  Returns the result and the ghost trace of fallback
attempts. -/
def retry_with_models {α : Type} (op : String → Except String α)
    (initName : Option String) (initRes : Except String α) :
    Except String α × List String :=
  match initRes with
  | Except.ok v => (Except.ok v, [])
  | Except.error e =>
      if isQuotaError e then
        retry_fallback_loop op e (initialTried initName) FALLBACK_MODELS
      else (Except.error e, [])

/-- The skip test of the fallback loop (line 203), as a Bool predicate on
catalog entries for a fixed `tried` set: `true` means the model is still
eligible. -/
def notSkipped (tried : List String) (m : String) : Bool :=
  !(decide (m ∈ tried ∨ ("models/" ++ m) ∈ tried))

/-- Two model names denote the same model up to the `models/` namespace
prefix. -/
def equivName (a b : String) : Prop :=
  a = b ∨ a = "models/" ++ b ∨ b = "models/" ++ a

/-- The preferred model list of `list_available_models` (lines 89-93). -/
def preferred_models : List String :=
  ["models/gemini-1.5-flash", "models/gemini-pro", "models/gemini-1.5-pro"]

/-- The generic-text-model test of line 106: contains `gemini` and not
`vision`. -/
def isGenericTextModel (m : String) : Bool :=
  containsSub m "gemini" && !(containsSub m "vision")

/-- `list_available_models` (lines 70-120).  `listing` models the outcome
of `genai.list_models()` (the names of the listed models, or the raised
exception's message).  `Except.error ()` models `sys.exit(1)`. -/
def list_available_models (listing : Except String (List String)) :
    Except Unit String :=
  match listing with
  | Except.error _ => Except.ok "gemini-1.5-pro"
  | Except.ok available =>
      match preferred_models.find? (fun p => available.contains p) with
      | some p => Except.ok (lastComponent p)
      | none =>
          match available.find? isGenericTextModel with
          | some m => Except.ok (lastComponent m)
          | none => Except.error ()

/-- `generate_tailored_content` (lines 274-395): run the transform through
`retry_with_models`; if that raises, return the original resume content
unchanged.  `op m` models `_generate_content` on the model named `m` with
the resume/jd/company/position arguments already fixed; `initRes` is the
first call's outcome on the loaded model. -/
def generate_tailored_content (op : String → Except String String)
    (initName : Option String) (initRes : Except String String)
    (resume_content : String) : String :=
  match (retry_with_models op initName initRes).1 with
  | Except.ok v => v
  | Except.error _ => resume_content

/-- The header comment built in `main` (lines 620-621). -/
def header_comment (company position timestamp : String) : String :=
  "% Tailored resume for " ++ company ++ " - " ++ position ++ "\n" ++
    "% Auto-tailored using Gemini AI on " ++ timestamp ++ "\n\n"

/-- The guard of lines 612-614: fall back to the original resume when the
generated content is empty or unchanged. -/
def main_select_content (generated resume_content : String) : String :=
  if generated = "" ∨ generated = resume_content then resume_content else generated

/-- The string written by `save_tailored_resume` in `main` (line 624):
header comment followed by the selected content. -/
def main_saved_output (company position timestamp generated resume_content : String) :
    String :=
  header_comment company position timestamp ++
    main_select_content generated resume_content

/-- The company/position resolution of `main` (lines 571-602): when both
CLI flags are supplied the extractor is not invoked; otherwise extraction
runs and fills whichever field was not supplied.  The boolean records
whether `extract_company_and_position` was invoked. -/
def main_resolve_fields (argCompany argPosition : Option String)
    (extracted : String × String) : (String × String) × Bool :=
  match argCompany, argPosition with
  | some c, some p => ((c, p), false)
  | _, _ => ((argCompany.getD extracted.1, argPosition.getD extracted.2), true)

/-- Python values produced by `json.loads` (floats are not needed by any
payload the script handles). -/
inductive PyVal where
  | dict : List (String × PyVal) → PyVal
  | list : List PyVal → PyVal
  | str : String → PyVal
  | int : Int → PyVal
  | bool : Bool → PyVal
  | null : PyVal

/-- Python truthiness of a JSON value. -/
def vTruthy : PyVal → Bool
  | PyVal.dict l => !l.isEmpty
  | PyVal.list l => !l.isEmpty
  | PyVal.str s => !(s == "")
  | PyVal.int n => !(n == 0)
  | PyVal.bool b => b
  | PyVal.null => false

/-- Python truthiness of `extracted_info` (`None` or a JSON value). -/
def pyOptTruthy : Option PyVal → Bool
  | none => false
  | some v => vTruthy v

/-- Python type name, for `AttributeError` messages. -/
def pyTypeName : PyVal → String
  | PyVal.dict _ => "dict"
  | PyVal.list _ => "list"
  | PyVal.str _ => "str"
  | PyVal.int _ => "int"
  | PyVal.bool _ => "bool"
  | PyVal.null => "NoneType"

/-- Python's `d.get(k, default)` on a JSON object (keys are unique in an
object produced by `json.loads`). -/
def dictGet (l : List (String × PyVal)) (k : String) (d : PyVal) : PyVal :=
  match l.find? (fun kv => kv.1 == k) with
  | some kv => kv.2
  | none => d

/-- Lines 480-487: pull `company` and `position` from the recovered value
with sentinel defaults; calling `.get` on a non-dict raises
`AttributeError` (modelled as `Except.error` carrying Python's message). -/
def finish_extract : PyVal → Except String (PyVal × PyVal)
  | PyVal.dict l =>
      Except.ok (dictGet l "company" (PyVal.str "Unknown Company"),
                 dictGet l "position" (PyVal.str "Unknown Position"))
  | v => Except.error ("'" ++ pyTypeName v ++ "' object has no attribute 'get'")

/-- Python whitespace recognized by `str.strip()` / `\s` (ASCII range). -/
def isPySpace (c : Char) : Bool :=
  c = ' ' || c = '\t' || c = '\n' || c = '\r' || c = '\x0b' || c = '\x0c'

/-- Python's `str.strip()`. -/
def pyStrip (l : List Char) : List Char :=
  ((l.dropWhile isPySpace).reverse.dropWhile isPySpace).reverse

/-- Lazy `(.+?)` up to the next triple-backtick: the shortest non-empty
capture followed by three backticks, as Python's backtracking finds it. -/
def firstCloseCapture : List Char → Option (List Char)
  | [] => none
  | c :: cs =>
      if "```".data.isPrefixOf cs then some [c]
      else
        match firstCloseCapture cs with
        | some cap => some (c :: cap)
        | none => none

/-- The part of the Method-1 regex after the opening backticks: the greedy
optional `(?:json)?` (tried consumed-first, falling back to empty when no
closing fence can be reached), then the lazy capture. -/
def method1At (rest : List Char) : Option (List Char) :=
  if "json".data.isPrefixOf rest then
    match firstCloseCapture (rest.drop 4) with
    | some cap => some cap
    | none => firstCloseCapture rest
  else firstCloseCapture rest

/-- `re.search` for Method 1's pattern (line 448): leftmost opening
triple-backtick from which a full match exists; yields the capture group. -/
def method1Search : List Char → Option (List Char)
  | [] => none
  | c :: cs =>
      if "```".data.isPrefixOf (c :: cs) then
        match method1At ((c :: cs).drop 3) with
        | some cap => some cap
        | none => method1Search cs
      else method1Search cs

/-- Scan forward from a `\x7b`: the run of brace-free characters, and the
rest after the closing `\x7d`, when the next brace is a closing one. -/
def braceFreeSpan : List Char → Option (List Char × List Char)
  | [] => none
  | c :: cs =>
      if c = '\x7d' then some ([], cs)
      else if c = '\x7b' then none
      else
        match braceFreeSpan cs with
        | some (int, rest) => some (c :: int, rest)
        | none => none

/-- The suffix right after the first occurrence of `pat`, when it occurs. -/
def dropAfterFirst (pat : List Char) : List Char → Option (List Char)
  | [] => if pat.isEmpty then some [] else none
  | l@(_ :: cs) =>
      if pat.isPrefixOf l then some (l.drop pat.length)
      else dropAfterFirst pat cs

/-- Test of the Method-2 interior: a quoted `company` key occurs and a
quoted `position` key occurs after it. -/
def hasCompanyThenPosition (l : List Char) : Bool :=
  match dropAfterFirst "\"company\"".data l with
  | some rest => hasSublist "\"position\"".data rest
  | none => false

/-- `re.search` for Method 2's pattern (line 460)
`\x7b[^\x7b\x7d]*"company"[^\x7b\x7d]*"position"[^\x7b\x7d]*\x7d`: the
leftmost brace-delimited brace-free span mentioning `"company"` then
`"position"`; yields the whole match (group 0). -/
def method2Search : List Char → Option (List Char)
  | [] => none
  | c :: cs =>
      if c = '\x7b' then
        match braceFreeSpan cs with
        | some (int, _) =>
            if hasCompanyThenPosition int then some ('\x7b' :: (int ++ ['\x7d']))
            else method2Search cs
        | none => method2Search cs
      else method2Search cs

/-- Python's `s.replace(pat, "")`: delete every (leftmost, non-overlapping)
occurrence of `pat`.  Structural via a fuel argument so the definition
reduces; callers supply `fuel = l.length`, which always suffices. -/
def removeAllGo (pat : List Char) : Nat → List Char → List Char
  | _, [] => []
  | 0, l => l
  | fuel + 1, c :: cs =>
      if pat.isPrefixOf (c :: cs) && !pat.isEmpty then
        removeAllGo pat fuel ((c :: cs).drop pat.length)
      else c :: removeAllGo pat fuel cs

/-- Python's `s.replace(pat, "")`. -/
def removeAll (pat l : List Char) : List Char := removeAllGo pat l.length l

/-- The tail of the fallback-regex pattern (lines 497, 502) after the key
word: `\"?\s*:\s*\"([^\"]+)\"`; yields the capture group.  The optional
quote is deterministic: consuming a present quote is the only branch that
can succeed. -/
def valueCapture (l : List Char) : Option (List Char) :=
  let l1 := match l with
    | '"' :: rest => rest
    | _ => l
  match l1.dropWhile isPySpace with
  | ':' :: l3 =>
      (match l3.dropWhile isPySpace with
       | '"' :: l5 =>
           let cap := l5.takeWhile (fun c => c ≠ '"')
           if cap.isEmpty then none
           else
             match l5.drop cap.length with
             | '"' :: _ => some cap
             | _ => none
       | _ => none)
  | _ => none

/-- `re.search` with `re.IGNORECASE` for the fallback patterns: leftmost
case-insensitive occurrence of the key word from which the value pattern
matches; yields the captured value. -/
def searchKeyValue (key : List Char) : List Char → Option (List Char)
  | [] => none
  | c :: cs =>
      if ((c :: cs).take key.length).map Char.toLower = key then
        match valueCapture ((c :: cs).drop key.length) with
        | some cap => some cap
        | none => searchKeyValue key cs
      else searchKeyValue key cs

/-- The raw-text regex fallback (lines 489-507). -/
def fallback_regex (t : List Char) : PyVal × PyVal :=
  let company := match searchKeyValue "company".data t with
    | some cap => String.mk cap
    | none => "Unknown Company"
  let position := match searchKeyValue "position".data t with
    | some cap => String.mk cap
    | none => "Unknown Position"
  (PyVal.str company, PyVal.str position)

/-- Method 1 (lines 446-454): when the text contains a fence, extract the
fenced capture, strip it, and parse it; a parse failure leaves
`extracted_info` as `None`. -/
def method1_extract (loads : String → Option PyVal) (t : List Char) : Option PyVal :=
  if hasSublist "```".data t then
    match method1Search t with
    | some cap => loads (String.mk (pyStrip cap))
    | none => none
  else none

/-- Method 2 (lines 456-467): only runs when `extracted_info` is falsy; a
successful parse overwrites it, a failure leaves it unchanged. -/
def method2_update (loads : String → Option PyVal) (t : List Char)
    (prev : Option PyVal) : Option PyVal :=
  if pyOptTruthy prev then prev
  else
    match method2Search t with
    | some g0 =>
        match loads (String.mk (pyStrip g0)) with
        | some v => some v
        | none => prev
    | none => prev

/-- Method 3 (lines 469-477): only runs when `extracted_info` is falsy;
parses the whole text with every `` ``` `` and every `json` occurrence
deleted (then stripped). -/
def method3_update (loads : String → Option PyVal) (t : List Char)
    (prev : Option PyVal) : Option PyVal :=
  if pyOptTruthy prev then prev
  else
    match loads (String.mk (pyStrip (removeAll "json".data (removeAll "```".data t)))) with
    | some v => some v
    | none => prev

/-- The chained three-layer JSON recovery over the stripped reply text. -/
def recoveredInfo (loads : String → Option PyVal) (t : List Char) : Option PyVal :=
  method3_update loads t (method2_update loads t (method1_extract loads t))

/-- The body of `_extract_info`'s `try` block (lines 431-507), given the
reply text of the model response.  An empty reply short-circuits to the
sentinels (line 432-434); otherwise the stripped text goes through the
three recovery layers, a truthy recovered value is consumed by `.get`
(which raises on non-dicts), and a falsy or absent one falls through to
the raw-text regex fallback. -/
def extract_info_body (loads : String → Option PyVal) (reply : String) :
    Except String (PyVal × PyVal) :=
  if reply = "" then
    Except.ok (PyVal.str "Unknown Company", PyVal.str "Unknown Position")
  else
    let result_text := pyStrip reply.data
    match recoveredInfo loads result_text with
    | some v =>
        if vTruthy v then finish_extract v
        else Except.ok (fallback_regex result_text)
    | none => Except.ok (fallback_regex result_text)

/-- `_extract_info` (lines 426-515): the body wrapped in the
`except Exception` handler that re-raises quota-pattern errors and turns
everything else into the sentinel pair. -/
def _extract_info (loads : String → Option PyVal) (reply : String) :
    Except String (PyVal × PyVal) :=
  match extract_info_body loads reply with
  | Except.ok r => Except.ok r
  | Except.error e =>
      if isQuotaError e then Except.error e
      else Except.ok (PyVal.str "Unknown Company", PyVal.str "Unknown Position")

/-- `extract_company_and_position` (lines 397-530): `_extract_info` driven
through `retry_with_models`, with a final catch-all returning the
sentinels. -/
def extract_company_and_position (op : String → Except String (PyVal × PyVal))
    (initName : Option String) (initRes : Except String (PyVal × PyVal)) :
    PyVal × PyVal :=
  match (retry_with_models op initName initRes).1 with
  | Except.ok r => r
  | Except.error _ => (PyVal.str "Unknown Company", PyVal.str "Unknown Position")

/-- Model of Python's `json.loads` on the concrete payloads exercised by
the concrete runs below; each equation reproduces `json.loads`'s
documented result on that literal (and `none` stands for
`json.JSONDecodeError`, which `json.loads` raises on each remaining
payload these runs feed it). -/
def demoJsonLoads (s : String) : Option PyVal :=
  if s = "\x7b\x7d" then some (PyVal.dict [])
  else if s = "\x7b\"company\": \"Acme Corp\", \"position\": \"Engineer\"\x7d" then
    some (PyVal.dict [("company", PyVal.str "Acme Corp"), ("position", PyVal.str "Engineer")])
  else if s = "\x7b\"position\": \"Engineer\", \"company\": \"X\"\x7d" then
    some (PyVal.dict [("position", PyVal.str "Engineer"), ("company", PyVal.str "X")])
  else none

/-- The claim's reading of the first-model retry classification: both the
quota-exhaustion phrase and the word `quota` matched case-insensitively. -/
def claimRetryableCaseInsensitive (msg : String) : Bool :=
  containsSub (lowerStr msg) "429 resource has been exhausted" ||
    containsSub (lowerStr msg) "quota"

/-! ### Helper lemmas -/

theorem str_data_append (a b : String) : (a ++ b).data = a.data ++ b.data := rfl

theorem isPrefixOf_append_self [BEq α] [LawfulBEq α] :
    ∀ (l r : List α), l.isPrefixOf (l ++ r) = true := by
  intro l r
  induction l with
  | nil => simp [List.isPrefixOf]
  | cons a as ih => simp [List.isPrefixOf, ih]

theorem startsWithModels_append (x : String) :
    startsWithModels ("models/" ++ x) = true := by
  unfold startsWithModels
  rw [str_data_append]
  exact isPrefixOf_append_self _ _

theorem models_append_inj {a b : String} (h : "models/" ++ a = "models/" ++ b) :
    a = b := by
  have hd : ("models/" ++ a).data = ("models/" ++ b).data := by rw [h]
  rw [str_data_append, str_data_append] at hd
  exact String.ext (List.append_cancel_left hd)

theorem quota_imp_continue {e : String} (h : isQuotaError e = true) :
    isContinueError e = true := by
  unfold isContinueError
  rw [h]
  rfl

theorem mem_initialTried_self (n : String) : n ∈ initialTried (some n) := by
  simp only [initialTried]
  split <;> simp

theorem fallback_catalog_unprefixed :
    ∀ m ∈ FALLBACK_MODELS, startsWithModels m = false := by decide

theorem fallback_catalog_nodup : FALLBACK_MODELS.Nodup := by decide

/-- When every fallback call fails with a loop-retryable error, the loop
attempts exactly the not-yet-tried catalog entries in declared order and
raises the error of the last attempt (or the incoming last-seen error if
nothing was attempted). -/
theorem loop_all_fail {α : Type} (op : String → Except String α) (err : String → String)
    (Hop : ∀ m, op m = Except.error (err m))
    (Hcont : ∀ m, isContinueError (err m) = true) :
    ∀ (cat tried : List String) (last : String),
      (∀ m ∈ cat, startsWithModels m = false) → cat.Nodup →
      retry_fallback_loop op last tried cat =
        (Except.error (((cat.filter (notSkipped tried)).map err).getLastD last),
         cat.filter (notSkipped tried)) := by
  intro cat
  induction cat with
  | nil => intro tried last _ _; rfl
  | cons m rest ih =>
      intro tried last Hsw Hnd
      have Hswrest : ∀ x ∈ rest, startsWithModels x = false := by
        intro x hx; exact Hsw x (List.mem_cons_of_mem m hx)
      have Hndrest : rest.Nodup := (List.nodup_cons.mp Hnd).2
      have Hmnotin : m ∉ rest := (List.nodup_cons.mp Hnd).1
      by_cases hskip : m ∈ tried ∨ ("models/" ++ m) ∈ tried
      · have hfilter : notSkipped tried m = false := by
          simp [notSkipped, hskip]
        rw [retry_fallback_loop, if_pos hskip, List.filter_cons, hfilter]
        simp only [Bool.false_eq_true, if_false]
        exact ih tried last Hswrest Hndrest
      · have hfilter : notSkipped tried m = true := by
          simp [notSkipped, hskip]
        have hcongr : rest.filter (notSkipped (m :: ("models/" ++ m) :: tried)) =
            rest.filter (notSkipped tried) := by
          apply List.filter_congr
          intro x hx
          have hxne : x ≠ m := fun h => Hmnotin (h ▸ hx)
          have hxsw : startsWithModels x = false := Hswrest x hx
          have hmsw : startsWithModels m = false := Hsw m (List.mem_cons_self m rest)
          unfold notSkipped
          congr 1
          rw [decide_eq_decide]
          constructor
          · rintro (hx1 | hx2)
            · rcases List.mem_cons.mp hx1 with h | h
              · exact absurd h hxne
              rcases List.mem_cons.mp h with h | h
              · exact absurd (h ▸ startsWithModels_append m) (by rw [hxsw]; simp)
              · exact Or.inl h
            · rcases List.mem_cons.mp hx2 with h | h
              · exact absurd (h ▸ hmsw) (by rw [startsWithModels_append x]; simp)
              rcases List.mem_cons.mp h with h | h
              · exact absurd (models_append_inj h) hxne
              · exact Or.inr h
          · rintro (h | h)
            · exact Or.inl (List.mem_cons_of_mem _ (List.mem_cons_of_mem _ h))
            · exact Or.inr (List.mem_cons_of_mem _ (List.mem_cons_of_mem _ h))
        rw [retry_fallback_loop, if_neg hskip]
        simp only [Hop m]
        rw [if_pos (Hcont m)]
        rw [List.filter_cons, hfilter]
        simp only [if_pos trivial, if_true]
        rw [ih (m :: ("models/" ++ m) :: tried) (err m) Hswrest Hndrest, hcongr]
        simp only [List.map_cons, List.getLastD_cons]

/-- Every fallback attempt is a catalog entry that was not in the `tried`
set (under either alias form) when the loop started. -/
theorem loop_attempts_sound {α : Type} (op : String → Except String α) :
    ∀ (cat tried : List String) (last : String),
      ∀ a ∈ (retry_fallback_loop op last tried cat).2,
        a ∈ cat ∧ a ∉ tried ∧ ("models/" ++ a) ∉ tried := by
  intro cat
  induction cat with
  | nil => intro tried last a ha; simp [retry_fallback_loop] at ha
  | cons m rest ih =>
      intro tried last a ha
      rw [retry_fallback_loop] at ha
      by_cases hskip : m ∈ tried ∨ ("models/" ++ m) ∈ tried
      · rw [if_pos hskip] at ha
        obtain ⟨h1, h2, h3⟩ := ih tried last a ha
        exact ⟨List.mem_cons_of_mem m h1, h2, h3⟩
      · rw [if_neg hskip] at ha
        push_neg at hskip
        cases hop : op m with
        | ok v =>
            rw [hop] at ha
            simp only [List.mem_singleton] at ha
            subst ha
            exact ⟨List.mem_cons_self _ _, hskip.1, hskip.2⟩
        | error e =>
            simp only [hop] at ha
            by_cases hc : isContinueError e = true
            · rw [if_pos hc] at ha
              simp only [List.mem_cons] at ha
              rcases ha with rfl | ha
              · exact ⟨List.mem_cons_self _ _, hskip.1, hskip.2⟩
              · obtain ⟨h1, h2, h3⟩ := ih (m :: ("models/" ++ m) :: tried) e a ha
                refine ⟨List.mem_cons_of_mem m h1, ?_, ?_⟩
                · intro hmem
                  exact h2 (List.mem_cons_of_mem _ (List.mem_cons_of_mem _ hmem))
                · intro hmem
                  exact h3 (List.mem_cons_of_mem _ (List.mem_cons_of_mem _ hmem))
            · rw [if_neg hc] at ha
              simp only [List.mem_singleton] at ha
              subst ha
              exact ⟨List.mem_cons_self _ _, hskip.1, hskip.2⟩

/-- The fallback attempts of one loop run are pairwise non-equivalent. -/
theorem loop_attempts_pairwise {α : Type} (op : String → Except String α) :
    ∀ (cat tried : List String) (last : String),
      List.Pairwise (fun a b => ¬ equivName a b)
        (retry_fallback_loop op last tried cat).2 := by
  intro cat
  induction cat with
  | nil => intro tried last; simp [retry_fallback_loop]
  | cons m rest ih =>
      intro tried last
      rw [retry_fallback_loop]
      by_cases hskip : m ∈ tried ∨ ("models/" ++ m) ∈ tried
      · rw [if_pos hskip]; exact ih tried last
      · rw [if_neg hskip]
        cases hop : op m with
        | ok v => simp
        | error e =>
            by_cases hc : isContinueError e = true
            · simp only [hc, if_true]
              refine List.Pairwise.cons ?_ (ih (m :: ("models/" ++ m) :: tried) e)
              intro b hb hequiv
              obtain ⟨_, hb2, hb3⟩ :=
                loop_attempts_sound op rest (m :: ("models/" ++ m) :: tried) e b hb
              rcases hequiv with h | h | h
              · exact hb2 (by rw [← h]; exact List.mem_cons_self _ _)
              · exact hb3 (by rw [← h]; exact List.mem_cons_self _ _)
              · exact hb2 (by
                  rw [h]
                  exact List.mem_cons_of_mem _ (List.mem_cons_self _ _))
            · simp only [hc, if_false]; simp

/-! ### Claim theorems -/

/-- C1: when the initial call and every fallback call raise quota-pattern
errors, `retry_with_models` attempts exactly the catalog models not
already tried, in the catalog's declared order, and raises the last-seen
exception (the last attempt's error, or the initial error when every
catalog entry was already tried). -/
theorem retry_quota_exhausts_catalog_in_order {α : Type}
    (op : String → Except String α) (err : String → String)
    (initName : Option String) (e0 : String)
    (Hop : ∀ m, op m = Except.error (err m))
    (Hq : ∀ m, isQuotaError (err m) = true)
    (H0 : isQuotaError e0 = true) :
    retry_with_models op initName (Except.error e0) =
      (Except.error
        (((FALLBACK_MODELS.filter (notSkipped (initialTried initName))).map err).getLastD e0),
       FALLBACK_MODELS.filter (notSkipped (initialTried initName))) := by
  rw [retry_with_models]
  rw [if_pos H0]
  exact loop_all_fail op err Hop (fun m => quota_imp_continue (Hq m))
    FALLBACK_MODELS (initialTried initName) e0 fallback_catalog_unprefixed
    fallback_catalog_nodup

/-- Witness for C1 at a concrete operation whose every call fails with a
quota message, with the loaded model named `gemini-1.5-pro`. -/
theorem retry_quota_exhausts_catalog_in_order_witness :
    retry_with_models (fun _ => (Except.error "quota exceeded" : Except String Unit))
        (some "gemini-1.5-pro") (Except.error "429 Resource has been exhausted") =
      (Except.error
        (((FALLBACK_MODELS.filter (notSkipped (initialTried (some "gemini-1.5-pro")))).map
            (fun _ => "quota exceeded")).getLastD "429 Resource has been exhausted"),
       FALLBACK_MODELS.filter (notSkipped (initialTried (some "gemini-1.5-pro")))) :=
  retry_quota_exhausts_catalog_in_order (fun _ => Except.error "quota exceeded")
    (fun _ => "quota exceeded") (some "gemini-1.5-pro")
    "429 Resource has been exhausted" (fun _ => rfl)
    (fun _ => (by decide : isQuotaError "quota exceeded" = true)) (by decide)

/-- C2: a first-call exception whose message does not match the quota
pattern is propagated unchanged and no fallback model is attempted. -/
theorem retry_nonretryable_propagates_unchanged {α : Type}
    (op : String → Except String α) (initName : Option String) (e0 : String)
    (H : isQuotaError e0 = false) :
    retry_with_models op initName (Except.error e0) = (Except.error e0, []) := by
  rw [retry_with_models]
  rw [if_neg (by rw [H]; simp)]

/-- Witness for C2 at a concrete non-quota error message. -/
theorem retry_nonretryable_propagates_unchanged_witness :
    retry_with_models (fun _ => (Except.error "x" : Except String Unit))
        (some "gemini-1.5-pro") (Except.error "400 Bad Request") =
      (Except.error "400 Bad Request", []) :=
  retry_nonretryable_propagates_unchanged (fun _ => Except.error "x")
    (some "gemini-1.5-pro") "400 Bad Request" (by decide)

/-- C3: within one invocation of `retry_with_models`, the attempted model
names (the loaded model's name, when it has one, followed by the fallback
attempts in order) are pairwise distinct up to the `models/` namespace
prefix: no model is attempted whose name, in either form, was attempted
earlier. -/
theorem retry_attempts_models_at_most_once {α : Type}
    (op : String → Except String α) (initName : Option String)
    (initRes : Except String α) :
    List.Pairwise (fun a b => ¬ equivName a b)
      (initName.toList ++ (retry_with_models op initName initRes).2) := by
  cases initRes with
  | ok v =>
      rw [retry_with_models]
      simp only [List.append_nil]
      cases initName <;> simp
  | error e =>
      rw [retry_with_models]
      by_cases hq : isQuotaError e = true
      · rw [if_pos hq]
        cases initName with
        | none =>
            simp only [Option.toList, List.nil_append]
            exact loop_attempts_pairwise op FALLBACK_MODELS _ e
        | some n =>
            simp only [Option.toList, List.cons_append, List.nil_append]
            refine List.Pairwise.cons ?_ (loop_attempts_pairwise op FALLBACK_MODELS _ e)
            intro b hb hequiv
            obtain ⟨hbcat, hb2, hb3⟩ :=
              loop_attempts_sound op FALLBACK_MODELS (initialTried (some n)) e b hb
            rcases hequiv with h | h | h
            · exact hb2 (h ▸ mem_initialTried_self n)
            · exact hb3 (h ▸ mem_initialTried_self n)
            · have : startsWithModels b = true := by rw [h]; exact startsWithModels_append n
              rw [fallback_catalog_unprefixed b hbcat] at this
              exact Bool.false_ne_true this
      · rw [if_neg hq]
        simp only [List.append_nil]
        cases initName <;> simp

/-- C6 counterexample: the message `429 RESOURCE HAS BEEN EXHAUSTED`
matches the claim's case-insensitive classification, yet the code
classifies it as fatal (the phrase test is case-sensitive): the error is
propagated from the first model with no fallback attempted. -/
theorem retry_classification_case_insensitive_counterexample :
    isQuotaError "429 RESOURCE HAS BEEN EXHAUSTED" = false ∧
    claimRetryableCaseInsensitive "429 RESOURCE HAS BEEN EXHAUSTED" = true ∧
    retry_with_models (fun _ => (Except.error "quota" : Except String Unit)) none
        (Except.error "429 RESOURCE HAS BEEN EXHAUSTED") =
      (Except.error "429 RESOURCE HAS BEEN EXHAUSTED", []) := by
  refine ⟨by decide, by decide, ?_⟩
  rfl

/-- The amended first-model retry classification: the quota-exhaustion
phrase `429 Resource has been exhausted` matched case-sensitively, or the
word `quota` matched case-insensitively. -/
def amendedRetryableFirst (msg : String) : Bool :=
  containsSub msg "429 Resource has been exhausted" ||
    containsSub (lowerStr msg) "quota"

/-- C6 amended: retry classification on the first model is a pure function
of the exception's message — the fallback loop is entered exactly when the
message contains the phrase `429 Resource has been exhausted`
case-sensitively or the word `quota` case-insensitively; any other message
is fatal and propagated unchanged. -/
theorem retry_classification_pure_of_message {α : Type}
    (op : String → Except String α) (initName : Option String) (e0 : String) :
    (amendedRetryableFirst e0 = true →
      retry_with_models op initName (Except.error e0) =
        retry_fallback_loop op e0 (initialTried initName) FALLBACK_MODELS) ∧
    (amendedRetryableFirst e0 = false →
      retry_with_models op initName (Except.error e0) = (Except.error e0, [])) := by
  have hsame : amendedRetryableFirst e0 = isQuotaError e0 := rfl
  constructor
  · intro h
    rw [hsame] at h
    rw [retry_with_models, if_pos h]
  · intro h
    rw [hsame] at h
    rw [retry_with_models, if_neg (by rw [h]; simp)]

/-- Witness for the amended C6 at one retryable and one fatal message. -/
theorem retry_classification_pure_of_message_witness :
    retry_with_models (fun _ => (Except.error "e" : Except String Unit)) none
        (Except.error "Quota limit reached") =
      retry_fallback_loop (fun _ => (Except.error "e" : Except String Unit))
        "Quota limit reached" (initialTried none) FALLBACK_MODELS ∧
    retry_with_models (fun _ => (Except.error "e" : Except String Unit)) none
        (Except.error "403 Forbidden") =
      (Except.error "403 Forbidden", []) :=
  ⟨(retry_classification_pure_of_message (fun _ => Except.error "e") none
      "Quota limit reached").1 (by decide),
   (retry_classification_pure_of_message (fun _ => Except.error "e") none
      "403 Forbidden").2 (by decide)⟩

/-- C4: when the transform raises a quota-pattern error on the loaded
model and on every fallback model, `generate_tailored_content` returns the
original resume content unchanged, and the saved output equals the header
comment followed by the original document (so the body after the header is
the original input). -/
theorem generate_tailored_fail_open
    (op : String → Except String String) (err : String → String)
    (initName : Option String) (e0 resume company position ts : String)
    (Hop : ∀ m, op m = Except.error (err m))
    (Hq : ∀ m, isQuotaError (err m) = true)
    (H0 : isQuotaError e0 = true) :
    generate_tailored_content op initName (Except.error e0) resume = resume ∧
    (main_saved_output company position ts
        (generate_tailored_content op initName (Except.error e0) resume)
        resume).data.drop (header_comment company position ts).data.length =
      resume.data := by
  have hloop := loop_all_fail op err Hop (fun m => quota_imp_continue (Hq m))
    FALLBACK_MODELS (initialTried initName) e0 fallback_catalog_unprefixed
    fallback_catalog_nodup
  have hgen : generate_tailored_content op initName (Except.error e0) resume = resume := by
    rw [generate_tailored_content, retry_with_models, if_pos H0, hloop]
  refine ⟨hgen, ?_⟩
  rw [hgen, main_saved_output, main_select_content, if_pos (Or.inr rfl)]
  rw [str_data_append]
  exact List.drop_left _ _

/-- Witness for C4 with a concrete all-quota-failing transform. -/
theorem generate_tailored_fail_open_witness :
    generate_tailored_content (fun _ => Except.error "quota hit")
        (some "gemini-1.5-pro") (Except.error "quota start")
        "\\documentclass resume body" = "\\documentclass resume body" ∧
    (main_saved_output "Acme" "Engineer" "2026-10-12 00:00:00"
        (generate_tailored_content (fun _ => Except.error "quota hit")
          (some "gemini-1.5-pro") (Except.error "quota start")
          "\\documentclass resume body")
        "\\documentclass resume body").data.drop
        (header_comment "Acme" "Engineer" "2026-10-12 00:00:00").data.length =
      "\\documentclass resume body".data :=
  generate_tailored_fail_open (fun _ => Except.error "quota hit")
    (fun _ => "quota hit") (some "gemini-1.5-pro") "quota start"
    "\\documentclass resume body" "Acme" "Engineer" "2026-10-12 00:00:00"
    (fun _ => rfl) (fun _ => (by decide : isQuotaError "quota hit" = true))
    (by decide)

/-- C8: with both `--company` and `--position` supplied, `main` resolves
the pair to the supplied values without invoking the extractor, and both
values appear verbatim inside the header comment, which prefixes the saved
output. -/
theorem main_supplied_fields_skip_extraction
    (c p : String) (extracted : String × String) (ts generated resume : String) :
    main_resolve_fields (some c) (some p) extracted = ((c, p), false) ∧
    (header_comment c p ts).data <+: (main_saved_output c p ts generated resume).data ∧
    c.data <:+: (header_comment c p ts).data ∧
    p.data <:+: (header_comment c p ts).data := by
  refine ⟨rfl, ?_, ?_, ?_⟩
  · rw [main_saved_output, str_data_append]
    exact List.prefix_append _ _
  · refine ⟨"% Tailored resume for ".data,
      (" - " ++ p ++ "\n" ++ "% Auto-tailored using Gemini AI on " ++ ts ++ "\n\n").data, ?_⟩
    simp only [header_comment, str_data_append, List.append_assoc]
  · refine ⟨("% Tailored resume for " ++ c ++ " - ").data,
      ("\n" ++ "% Auto-tailored using Gemini AI on " ++ ts ++ "\n\n").data, ?_⟩
    simp only [header_comment, str_data_append, List.append_assoc]

/-- `List.find?` returns the first element satisfying the predicate. -/
theorem find?_of_first {α : Type} (p : α → Bool) (a : α) (post : List α)
    (hp : p a = true) :
    ∀ (pre : List α), (∀ x ∈ pre, p x = false) →
      (pre ++ a :: post).find? p = some a := by
  intro pre
  induction pre with
  | nil => intro _; simp [List.find?_cons_of_pos _ hp]
  | cons x xs ih =>
      intro h
      rw [List.cons_append,
        List.find?_cons_of_neg _ (by simp [h x (List.mem_cons_self x xs)])]
      exact ih (fun y hy => h y (List.mem_cons_of_mem x hy))

/-- `List.find?` finds nothing when the predicate fails everywhere. -/
theorem find?_of_all_false {α : Type} (p : α → Bool) :
    ∀ l : List α, (∀ x ∈ l, p x = false) → l.find? p = none := by
  intro l
  induction l with
  | nil => intro _; rfl
  | cons x xs ih =>
      intro h
      rw [List.find?_cons_of_neg _ (by simp [h x (List.mem_cons_self x xs)])]
      exact ih (fun y hy => h y (List.mem_cons_of_mem x hy))

/-- C9: model selection returns the first preferred identifier present in
the provider's list with the namespace prefix stripped; failing that, the
first available identifier containing `gemini` and not `vision` (prefix
stripped); and when the listing call raises it returns the hardcoded
default `gemini-1.5-pro`. -/
theorem list_available_models_selection :
    (∀ e, list_available_models (Except.error e) = Except.ok "gemini-1.5-pro") ∧
    (∀ (available pre post : List String) (p : String),
      preferred_models = pre ++ p :: post →
      (∀ q ∈ pre, available.contains q = false) →
      available.contains p = true →
      list_available_models (Except.ok available) = Except.ok (lastComponent p)) ∧
    (∀ (pre post : List String) (m : String),
      (∀ q ∈ preferred_models, (pre ++ m :: post).contains q = false) →
      (∀ q ∈ pre, isGenericTextModel q = false) →
      isGenericTextModel m = true →
      list_available_models (Except.ok (pre ++ m :: post)) =
        Except.ok (lastComponent m)) := by
  refine ⟨fun e => rfl, ?_, ?_⟩
  · intro available pre post p hpre hnone hyes
    rw [list_available_models, hpre,
      find?_of_first (fun q => available.contains q) p post hyes pre hnone]
  · intro pre post m hpref hnone hyes
    rw [list_available_models]
    have hfind : preferred_models.find? (fun q => (pre ++ m :: post).contains q) = none :=
      find?_of_all_false _ preferred_models (fun x hx => hpref x hx)
    rw [hfind, find?_of_first isGenericTextModel m post hyes pre hnone]

/-- Witness for C9: the error fallback, a preferred hit (second entry),
and the generic scan (skipping a non-gemini and a vision model). -/
theorem list_available_models_selection_witness :
    list_available_models (Except.error "boom") = Except.ok "gemini-1.5-pro" ∧
    list_available_models (Except.ok ["models/gemini-pro"]) = Except.ok "gemini-pro" ∧
    list_available_models
        (Except.ok ["models/embedding-001", "models/gemini-2.5-vision", "models/gemini-9z"]) =
      Except.ok "gemini-9z" :=
  ⟨list_available_models_selection.1 "boom",
   list_available_models_selection.2.1 ["models/gemini-pro"]
     ["models/gemini-1.5-flash"] ["models/gemini-1.5-pro"] "models/gemini-pro"
     rfl (by decide) (by decide),
   list_available_models_selection.2.2
     ["models/embedding-001", "models/gemini-2.5-vision"] [] "models/gemini-9z"
     (by decide) (by decide) (by decide)⟩

/-- Any error escaping the body of `_extract_info`'s `try` block is an
`AttributeError` from calling `.get` on a non-dict, whose message never
matches the quota pattern. -/
theorem body_error_not_quota (loads : String → Option PyVal) (reply : String)
    (e : String) (h : extract_info_body loads reply = Except.error e) :
    isQuotaError e = false := by
  simp only [extract_info_body] at h
  by_cases hr : reply = ""
  · rw [if_pos hr] at h
    exact absurd h (by simp)
  · rw [if_neg hr] at h
    cases hrec : recoveredInfo loads (pyStrip reply.data) with
    | none => rw [hrec] at h; exact absurd h (by simp)
    | some v =>
        simp only [hrec] at h
        by_cases ht : vTruthy v = true
        · rw [if_pos ht] at h
          cases v with
          | dict l =>
              simp only [finish_extract] at h
              exact absurd h (by simp)
          | list l =>
              simp only [finish_extract, Except.error.injEq] at h
              rw [← h]; simp only [pyTypeName]; decide
          | str s =>
              simp only [finish_extract, Except.error.injEq] at h
              rw [← h]; simp only [pyTypeName]; decide
          | int n =>
              simp only [finish_extract, Except.error.injEq] at h
              rw [← h]; simp only [pyTypeName]; decide
          | bool b =>
              simp only [finish_extract, Except.error.injEq] at h
              rw [← h]; simp only [pyTypeName]; decide
          | null =>
              simp only [finish_extract, Except.error.injEq] at h
              rw [← h]; simp only [pyTypeName]; decide
        · rw [if_neg ht] at h
          exact absurd h (by simp)

/-- C5: the field extractor never raises: for every `json.loads` behavior
and every reply text `_extract_info` returns a (company, position) pair,
and on the empty reply text it returns the sentinel pair. -/
theorem field_extractor_total_and_sentinel_on_empty :
    (∀ (loads : String → Option PyVal) (reply : String),
        ∃ r : PyVal × PyVal, _extract_info loads reply = Except.ok r) ∧
    (∀ loads : String → Option PyVal,
        _extract_info loads "" =
          Except.ok (PyVal.str "Unknown Company", PyVal.str "Unknown Position")) := by
  constructor
  · intro loads reply
    rw [_extract_info]
    cases h : extract_info_body loads reply with
    | ok r => exact ⟨r, rfl⟩
    | error e =>
        refine ⟨(PyVal.str "Unknown Company", PyVal.str "Unknown Position"), ?_⟩
        show (if isQuotaError e = true then Except.error e
              else Except.ok (PyVal.str "Unknown Company", PyVal.str "Unknown Position")) =
          Except.ok (PyVal.str "Unknown Company", PyVal.str "Unknown Position")
        rw [if_neg (by rw [body_error_not_quota loads reply e h]; simp)]
  · intro loads
    rfl

/-- C7 counterexample: on this reply the first recovery layer recovers the
empty JSON object `\x7b\x7d`, yet the extractor does not return the
sentinel pair — the falsy empty dict falls through to the raw-text regex
fallback, which finds values in the surrounding text. -/
theorem extractor_empty_object_falls_through_counterexample :
    recoveredInfo demoJsonLoads
        (pyStrip ("```\x7b\x7d``` company: \"Acme\" position: \"Boss\"").data) =
      some (PyVal.dict []) ∧
    _extract_info demoJsonLoads "```\x7b\x7d``` company: \"Acme\" position: \"Boss\"" =
      Except.ok (PyVal.str "Acme", PyVal.str "Boss") ∧
    (PyVal.str "Acme", PyVal.str "Boss") ≠
      (PyVal.str "Unknown Company", PyVal.str "Unknown Position") := by
  refine ⟨rfl, rfl, ?_⟩
  intro h
  have h1 : PyVal.str "Acme" = PyVal.str "Unknown Company" := congrArg Prod.fst h
  injection h1 with h2
  exact absurd h2 (by decide)

/-- C7 amended: when a recovery layer yields a non-empty JSON object, the
extractor returns that object's `company` and `position` fields with the
sentinel string for any absent field, without the raw-text regex fallback;
a recovered empty object is falsy and instead falls through to the
fallback. -/
theorem extractor_nonempty_object_fields (loads : String → Option PyVal)
    (reply : String) (l : List (String × PyVal)) (h0 : reply ≠ "")
    (h1 : recoveredInfo loads (pyStrip reply.data) = some (PyVal.dict l))
    (h2 : l ≠ []) :
    _extract_info loads reply =
      Except.ok (dictGet l "company" (PyVal.str "Unknown Company"),
                 dictGet l "position" (PyVal.str "Unknown Position")) := by
  have ht : vTruthy (PyVal.dict l) = true := by
    cases l with
    | nil => exact absurd rfl h2
    | cons a as => rfl
  have hbody : extract_info_body loads reply =
      Except.ok (dictGet l "company" (PyVal.str "Unknown Company"),
                 dictGet l "position" (PyVal.str "Unknown Position")) := by
    simp only [extract_info_body]
    rw [if_neg h0]
    simp only [h1]
    rw [if_pos ht, finish_extract]
  rw [_extract_info, hbody]

/-- Witness for the amended C7 at a well-formed JSON reply recovered by
the second layer. -/
theorem extractor_nonempty_object_fields_witness :
    ("\x7b\"company\": \"Acme Corp\", \"position\": \"Engineer\"\x7d" : String) ≠ "" ∧
    _extract_info demoJsonLoads
        "\x7b\"company\": \"Acme Corp\", \"position\": \"Engineer\"\x7d" =
      Except.ok
        (dictGet [("company", PyVal.str "Acme Corp"), ("position", PyVal.str "Engineer")]
          "company" (PyVal.str "Unknown Company"),
         dictGet [("company", PyVal.str "Acme Corp"), ("position", PyVal.str "Engineer")]
          "position" (PyVal.str "Unknown Position")) :=
  ⟨by decide,
   extractor_nonempty_object_fields demoJsonLoads
     "\x7b\"company\": \"Acme Corp\", \"position\": \"Engineer\"\x7d"
     [("company", PyVal.str "Acme Corp"), ("position", PyVal.str "Engineer")]
     (by decide) rfl (List.cons_ne_nil _ _)⟩

/-- C10: the third recovery layer deletes every `` ``` `` and `json`
occurrence from the whole reply before parsing — including inside field
values: on this fence-free reply whose company value is `jsonX`, the
parsed text has value `X`, the extractor returns `X` for the company,
and `jsonX` (present verbatim in the reply) is not returned. -/
theorem extractor_method3_deletes_json_everywhere :
    String.mk (removeAll "json".data (removeAll "```".data
        ("\x7b\"position\": \"Engineer\", \"company\": \"jsonX\"\x7d").data)) =
      "\x7b\"position\": \"Engineer\", \"company\": \"X\"\x7d" ∧
    recoveredInfo demoJsonLoads
        (pyStrip ("\x7b\"position\": \"Engineer\", \"company\": \"jsonX\"\x7d").data) =
      some (PyVal.dict [("position", PyVal.str "Engineer"), ("company", PyVal.str "X")]) ∧
    _extract_info demoJsonLoads
        "\x7b\"position\": \"Engineer\", \"company\": \"jsonX\"\x7d" =
      Except.ok (PyVal.str "X", PyVal.str "Engineer") ∧
    hasSublist "\"company\": \"jsonX\"".data
        ("\x7b\"position\": \"Engineer\", \"company\": \"jsonX\"\x7d").data = true ∧
    PyVal.str "X" ≠ PyVal.str "jsonX" := by
  refine ⟨rfl, rfl, rfl, rfl, ?_⟩
  intro h
  injection h with h2
  exact absurd h2 (by decide)

end ResumeTailor
